import Mathlib

/-!
Verification of `image_sample_skip.py` (SAG-Acceleration repository).

The script drives batched image sampling from a diffusion model across
distributed workers, gathers the per-worker batches with `all_gather`,
concatenates and truncates them, and saves the result as a `.npz` file on
rank 0.  The external diffusion library (`p_sample_loop` /
`ddim_sample_loop`), the random class sampler and the per-worker tensor
contents are modelled as oracles in `Config`; everything the script itself
does (the accumulate-until-enough loop, the pixel quantization
`((x + 1) * 127.5).clamp(0, 255).to(uint8)`, the `permute(0, 2, 3, 1)`, the
gather, the concatenation/truncation and the save) is embedded faithfully.
-/

namespace SAG

unseal Rat.mul Rat.add Rat.inv Rat.sub Rat.ofScientific

/-- A 3-dimensional tensor (one image, H x W x C after the permute). -/
abbrev T3 := List (List (List ℕ))

/-- A 4-dimensional tensor (a batch of images). -/
abbrev T4 := List (List (List (List ℕ)))

/-- Number of classes used by `th.randint(low=0, high=NUM_CLASSES, ...)`.
Imported by the script from `diffusion_skip.script_util`; its concrete
value does not matter for any claim, only that `randint` yields values
below it. -/
def NUM_CLASSES : ℕ := 1000

/-- The command-line arguments of the script that the sampling loop and the
saving code read (`args.num_samples`, `args.batch_size`, ...). -/
structure Args where
  num_samples : ℕ
  batch_size : ℕ
  image_size : ℕ
  class_cond : Bool
  use_ddim : Bool
  clip_denoised : Bool
  guide_start : ℚ
  guide_scale : ℚ
  blur_sigma : ℚ
deriving DecidableEq

/-- The `guidance_kwargs` dictionary built once before the loop:
`{"guide_start": args.guide_start, "guide_scale": args.guide_scale,
"blur_sigma": args.blur_sigma}`. -/
structure GuidanceKwargs where
  guide_start : ℚ
  guide_scale : ℚ
  blur_sigma : ℚ
deriving DecidableEq

/-- The two external sampling routines the script can dispatch to. -/
inductive Routine where
  | p_sample_loop : Routine
  | ddim_sample_loop : Routine
deriving DecidableEq

/-- Observable events of one worker: invocations of the external sampling
routine (with the shape tuple and guidance dictionary passed to it) and the
collective operations (`dist.all_gather` on samples, `dist.all_gather` on
labels, `dist.barrier`). -/
inductive Event where
  | sampleCall (r : Routine) (shape : ℕ × ℕ × ℕ × ℕ) (g : GuidanceKwargs) : Event
  | allGatherSamples : Event
  | allGatherLabels : Event
  | barrier : Event
deriving DecidableEq

/-- Whether an event is an invocation of the external sampling routine. -/
def Event.isSampleCall : Event → Bool
  | .sampleCall _ _ _ => true
  | _ => false

/-- Whether an event is a `dist.all_gather` call (on samples or labels). -/
def Event.isAllGather : Event → Bool
  | .allGatherSamples => true
  | .allGatherLabels => true
  | _ => false

/-- Whether an event is a `dist.barrier` call. -/
def Event.isBarrier : Event → Bool
  | .barrier => true
  | _ => false

/-- One run configuration: parsed arguments, the distributed environment
(`dist.get_world_size()`, `dist.get_rank()`), the logger directory, and
oracles for the external sampler output (`raw w i b c h x` is the raw float
produced by worker `w` in iteration `i` at index `(b, c, h, x)` of the
NCHW sample tensor, modelled as a rational) and for `th.randint` (`classRand
w i b`, reduced mod `NUM_CLASSES` to reflect the `randint` bounds). -/
structure Config where
  args : Args
  world_size : ℕ
  rank : ℕ
  logger_dir : String
  raw : ℕ → ℕ → ℕ → ℕ → ℕ → ℕ → ℚ
  classRand : ℕ → ℕ → ℕ → ℕ

/-- The pixel transform `((x + 1) * 127.5).clamp(0, 255).to(th.uint8)`:
shift/scale, clamp to `[0, 255]`, then truncate to an unsigned integer
(truncation toward zero agrees with `Int.floor` on the clamped,
non-negative value). -/
def quantizePixel (x : ℚ) : ℕ :=
  (Int.floor (min (max ((x + 1) * (255 / 2)) 0) 255)).toNat

/-- The quantized sample tensor of worker `w` in iteration `i`, still in
NCHW layout: shape `(batch_size, 3, image_size, image_size)`, with every
entry put through `quantizePixel`. -/
def rawSampleQuantized (cfg : Config) (w i : ℕ) : T4 :=
  (List.range cfg.args.batch_size).map fun b =>
    (List.range 3).map fun c =>
      (List.range cfg.args.image_size).map fun h =>
        (List.range cfg.args.image_size).map fun x =>
          quantizePixel (cfg.raw w i b c h x)

/-- Index-based permutation of one image cube from CHW to HWC layout:
`result[h][x][c] = cube[c][h][x]`. -/
def permuteCHWtoHWC (cube : List (List (List ℕ))) : List (List (List ℕ)) :=
  (List.range (cube.headD []).length).map fun h =>
    (List.range ((cube.headD []).headD []).length).map fun x =>
      (List.range cube.length).map fun c =>
        ((cube.getD c []).getD h []).getD x 0

/-- `sample.permute(0, 2, 3, 1)`: permute every image of the batch from
CHW to HWC. -/
def permute0231 (t : T4) : T4 := t.map permuteCHWtoHWC

/-- The processed sample tensor of worker `w` in iteration `i` as it is
gathered and appended to `all_images`: quantized and permuted to NHWC. -/
def processedSample (cfg : Config) (w i : ℕ) : T4 :=
  permute0231 (rawSampleQuantized cfg w i)

/-- The class labels drawn by worker `w` in iteration `i`:
`th.randint(low=0, high=NUM_CLASSES, size=(batch_size,))`. -/
def workerClasses (cfg : Config) (w i : ℕ) : List ℕ :=
  (List.range cfg.args.batch_size).map fun b => cfg.classRand w i b % NUM_CLASSES

/-- The list the `dist.all_gather` on samples produces in iteration `i`:
one processed batch per worker, in rank order. -/
def gatheredAt (cfg : Config) (i : ℕ) : List T4 :=
  (List.range cfg.world_size).map fun w => processedSample cfg w i

/-- The list the `dist.all_gather` on labels produces in iteration `i`. -/
def labelsAt (cfg : Config) (i : ℕ) : List (List ℕ) :=
  (List.range cfg.world_size).map fun w => workerClasses cfg w i

/-- The state threaded through the sampling loop: the iteration counter,
the accumulated `all_images` and `all_labels` lists, and the event trace. -/
structure RunState where
  iter : ℕ
  all_images : List T4
  all_labels : List (List ℕ)
  events : List Event
deriving DecidableEq

/-- State before the loop: `all_images = []`, `all_labels = []`. -/
def initState : RunState := ⟨0, [], [], []⟩

/-- `diffusion.p_sample_loop if not args.use_ddim else
diffusion.ddim_sample_loop`. -/
def sampleRoutine (cfg : Config) : Routine :=
  if cfg.args.use_ddim then .ddim_sample_loop else .p_sample_loop

/-- The `guidance_kwargs` dictionary as built from the parsed arguments
before the loop. -/
def guidanceOf (cfg : Config) : GuidanceKwargs :=
  ⟨cfg.args.guide_start, cfg.args.guide_scale, cfg.args.blur_sigma⟩

/-- The shape tuple `(args.batch_size, 3, args.image_size,
args.image_size)` passed to the sampling routine. -/
def sampleShape (cfg : Config) : ℕ × ℕ × ℕ × ℕ :=
  (cfg.args.batch_size, 3, cfg.args.image_size, cfg.args.image_size)

/-- One iteration of the sampling loop: invoke the sampling routine,
quantize and permute the sample, `all_gather` the per-worker batches and
extend `all_images`; when `class_cond`, also `all_gather` the label
tensors and extend `all_labels`. -/
def loopBody (cfg : Config) (s : RunState) : RunState :=
  let evs := [Event.sampleCall (sampleRoutine cfg) (sampleShape cfg) (guidanceOf cfg),
              Event.allGatherSamples]
  if cfg.args.class_cond then
    { iter := s.iter + 1,
      all_images := s.all_images ++ gatheredAt cfg s.iter,
      all_labels := s.all_labels ++ labelsAt cfg s.iter,
      events := s.events ++ evs ++ [Event.allGatherLabels] }
  else
    { iter := s.iter + 1,
      all_images := s.all_images ++ gatheredAt cfg s.iter,
      all_labels := s.all_labels,
      events := s.events ++ evs }

/-- The loop guard `len(all_images) * args.batch_size < args.num_samples`. -/
def guardB (cfg : Config) (s : RunState) : Bool :=
  decide (s.all_images.length * cfg.args.batch_size < cfg.args.num_samples)

/-- Fuel-bounded while-loop: run `loopBody` while the guard holds, for at
most `fuel` iterations.  (The fuel is a device of the embedding; the
theorems show that `num_samples` fuel always suffices when `batch_size` and
the world size are positive.) -/
def runWhileFuel (cfg : Config) : ℕ → RunState → RunState
  | 0, s => s
  | f + 1, s => if guardB cfg s then runWhileFuel cfg f (loopBody cfg s) else s

/-- The state after the sampling loop. -/
def finalLoopState (cfg : Config) : RunState :=
  runWhileFuel cfg cfg.args.num_samples initState

/-- Ceiling division on naturals. -/
def ceilDiv (a b : ℕ) : ℕ := (a + b - 1) / b

/-- Number of iterations the sampling loop performs:
`ceil(num_samples / (batch_size * world_size))`. -/
def loopIters (cfg : Config) : ℕ :=
  ceilDiv cfg.args.num_samples (cfg.args.batch_size * cfg.world_size)

/-- The `.npz` file written by rank 0: its path and the two arrays
(`arr` and, when `class_cond`, `label_arr`). -/
structure SavedFile where
  path : String
  arr : List T3
  labels : Option (List ℕ)
deriving DecidableEq

/-- `"x".join([str(x) for x in arr.shape])` for the concatenated 4-d
sample array. -/
def shapeStrOf (arr : List T3) : String :=
  String.intercalate "x"
    ([arr.length, (arr.headD []).length, ((arr.headD []).headD []).length,
      (((arr.headD []).headD []).headD []).length].map toString)

/-- `os.path.join` for a relative second component. -/
def ospathJoin (a b : String) : String := a ++ "/" ++ b

/-- The code after the loop: `np.concatenate` (which raises `ValueError`,
modelled as `none`, when the list to concatenate is empty), truncation to
`num_samples`, the rank-0 save of the `.npz` file, then `dist.barrier()`. -/
def postLoop (cfg : Config) (s : RunState) : Option (RunState × Option SavedFile) :=
  if s.all_images.isEmpty then none
  else if cfg.args.class_cond && s.all_labels.isEmpty then none
  else
    some ({ s with events := s.events ++ [Event.barrier] },
      if cfg.rank = 0 then
        some { path := ospathJoin cfg.logger_dir
                 ("samples_" ++
                   shapeStrOf (s.all_images.flatten.take cfg.args.num_samples) ++ ".npz"),
               arr := s.all_images.flatten.take cfg.args.num_samples,
               labels :=
                 if cfg.args.class_cond then
                   some (s.all_labels.flatten.take cfg.args.num_samples)
                 else none }
      else none)

/-- The whole run of `main` after model setup: the sampling loop followed
by the save-and-barrier epilogue.  `none` models the `ValueError` raised by
`np.concatenate` on an empty list. -/
def mainRun (cfg : Config) : Option (RunState × Option SavedFile) :=
  postLoop cfg (finalLoopState cfg)

/-- The file saved by this worker (`none` when the run errors or the
worker is not rank 0). -/
def savedOf (cfg : Config) : Option SavedFile :=
  match mainRun cfg with
  | some (_, sf) => sf
  | none => none

/-- The event trace of the run (up to the crash point when the run
errors). -/
def runEvents (cfg : Config) : List Event :=
  match mainRun cfg with
  | some (s, _) => s.events
  | none => (finalLoopState cfg).events

/-- The `.npz` file rank 0 writes, as a function of the loop result. -/
def expectedSaved (cfg : Config) : SavedFile where
  path := ospathJoin cfg.logger_dir
    ("samples_" ++
      shapeStrOf ((finalLoopState cfg).all_images.flatten.take cfg.args.num_samples) ++
      ".npz")
  arr := (finalLoopState cfg).all_images.flatten.take cfg.args.num_samples
  labels :=
    if cfg.args.class_cond then
      some ((finalLoopState cfg).all_labels.flatten.take cfg.args.num_samples)
    else none

/-- Shape predicate for a 3-d tensor: `t` has shape `(a, b, c)`. -/
def hasShape3 (t : T3) (a b c : ℕ) : Prop :=
  t.length = a ∧ ∀ r ∈ t, r.length = b ∧ ∀ p ∈ r, p.length = c

/-- Shape predicate for a 4-d tensor: `t` has shape `(a, b, c, d)`. -/
def hasShape4 (t : T4) (a b c d : ℕ) : Prop :=
  t.length = a ∧ ∀ u ∈ t, hasShape3 u b c d

instance (t : T3) (a b c : ℕ) : Decidable (hasShape3 t a b c) := by
  unfold hasShape3; exact inferInstance

instance (t : T4) (a b c d : ℕ) : Decidable (hasShape4 t a b c d) := by
  unfold hasShape4 hasShape3; exact inferInstance

/-- Every entry of a 3-d tensor is at most 255. -/
def pixels3Le255 (t : T3) : Prop :=
  ∀ r ∈ t, ∀ p ∈ r, ∀ v ∈ p, v ≤ 255

/-- Every entry of a 4-d tensor is at most 255. -/
def pixelsLe255 (t : T4) : Prop := ∀ u ∈ t, pixels3Le255 u

instance (t : T3) : Decidable (pixels3Le255 t) := by
  unfold pixels3Le255; exact inferInstance

instance (t : T4) : Decidable (pixelsLe255 t) := by
  unfold pixelsLe255 pixels3Le255; exact inferInstance

/-- The events one loop iteration appends to the trace. -/
def stepEvents (cfg : Config) : List Event :=
  if cfg.args.class_cond then
    [Event.sampleCall (sampleRoutine cfg) (sampleShape cfg) (guidanceOf cfg),
     Event.allGatherSamples, Event.allGatherLabels]
  else
    [Event.sampleCall (sampleRoutine cfg) (sampleShape cfg) (guidanceOf cfg),
     Event.allGatherSamples]

/-- A concrete single-worker configuration (one sample, one-pixel images,
class-conditional) used to exercise the theorems on a closed run. -/
def cfgW : Config where
  args :=
    { num_samples := 1, batch_size := 1, image_size := 1, class_cond := true,
      use_ddim := false, clip_denoised := true,
      guide_start := 0, guide_scale := 0, blur_sigma := 0 }
  world_size := 1
  rank := 0
  logger_dir := "RESULTS/run"
  raw := fun _ _ _ _ _ _ => 0
  classRand := fun _ _ _ => 0

/-- A concrete configuration whose loop runs twice (`num_samples = 2`,
`batch_size = 1`, one worker). -/
def cfgTwo : Config where
  args :=
    { num_samples := 2, batch_size := 1, image_size := 1, class_cond := false,
      use_ddim := false, clip_denoised := true,
      guide_start := 0, guide_scale := 0, blur_sigma := 0 }
  world_size := 1
  rank := 0
  logger_dir := "RESULTS/run"
  raw := fun _ _ _ _ _ _ => 0
  classRand := fun _ _ _ => 0

/-- A concrete configuration with `num_samples = 0` (and `batch_size = 1`,
one worker): the loop is skipped and `np.concatenate` raises. -/
def cfgZero : Config where
  args :=
    { num_samples := 0, batch_size := 1, image_size := 1, class_cond := false,
      use_ddim := false, clip_denoised := true,
      guide_start := 0, guide_scale := 0, blur_sigma := 0 }
  world_size := 1
  rank := 0
  logger_dir := "RESULTS/run"
  raw := fun _ _ _ _ _ _ => 0
  classRand := fun _ _ _ => 0

/-! ### Basic lemmas about one loop iteration -/

theorem gatheredAt_length (cfg : Config) (i : ℕ) :
    (gatheredAt cfg i).length = cfg.world_size := by
  simp [gatheredAt]

theorem labelsAt_length (cfg : Config) (i : ℕ) :
    (labelsAt cfg i).length = cfg.world_size := by
  simp [labelsAt]

theorem loopBody_iter (cfg : Config) (s : RunState) :
    (loopBody cfg s).iter = s.iter + 1 := by
  unfold loopBody; split <;> rfl

theorem loopBody_images (cfg : Config) (s : RunState) :
    (loopBody cfg s).all_images = s.all_images ++ gatheredAt cfg s.iter := by
  unfold loopBody; split <;> rfl

theorem loopBody_labels (cfg : Config) (s : RunState) :
    (loopBody cfg s).all_labels =
      if cfg.args.class_cond then s.all_labels ++ labelsAt cfg s.iter
      else s.all_labels := by
  unfold loopBody
  by_cases hc : cfg.args.class_cond <;> simp [hc]

theorem loopBody_events (cfg : Config) (s : RunState) :
    (loopBody cfg s).events = s.events ++ stepEvents cfg := by
  unfold loopBody stepEvents
  by_cases hc : cfg.args.class_cond <;> simp [hc]

theorem loopBody_images_length (cfg : Config) (s : RunState) :
    (loopBody cfg s).all_images.length = s.all_images.length + cfg.world_size := by
  rw [loopBody_images, List.length_append, gatheredAt_length]

/-! ### The state after `k` iterations -/

theorem iterate_iter (cfg : Config) (k : ℕ) :
    ((loopBody cfg)^[k] initState).iter = k := by
  induction k with
  | zero => rfl
  | succ k ih => rw [Function.iterate_succ_apply', loopBody_iter, ih]

theorem iterate_images_length (cfg : Config) (k : ℕ) :
    ((loopBody cfg)^[k] initState).all_images.length = k * cfg.world_size := by
  induction k with
  | zero => simp [initState]
  | succ k ih =>
    rw [Function.iterate_succ_apply', loopBody_images_length, ih,
      Nat.succ_mul]

theorem iterate_labels_length (cfg : Config) (k : ℕ) :
    ((loopBody cfg)^[k] initState).all_labels.length =
      if cfg.args.class_cond then k * cfg.world_size else 0 := by
  induction k with
  | zero => cases hc : cfg.args.class_cond <;> simp [initState, hc]
  | succ k ih =>
    rw [Function.iterate_succ_apply', loopBody_labels]
    cases hc : cfg.args.class_cond
    · simpa [hc] using ih
    · simp only [hc] at ih ⊢
      simp [labelsAt_length, ih, Nat.succ_mul]

theorem iterate_events (cfg : Config) (k : ℕ) :
    ((loopBody cfg)^[k] initState).events =
      (List.replicate k (stepEvents cfg)).flatten := by
  induction k with
  | zero => rfl
  | succ k ih =>
    rw [Function.iterate_succ_apply', loopBody_events, ih,
      List.replicate_succ', List.flatten_append]
    simp

/-! ### Ceiling division -/

theorem le_ceilDiv_mul (n b : ℕ) (hb : 1 ≤ b) : n ≤ ceilDiv n b * b := by
  unfold ceilDiv
  have h1 := Nat.div_add_mod (n + b - 1) b
  have h2 : (n + b - 1) % b < b := Nat.mod_lt _ (by omega)
  rw [mul_comm] at h1
  omega

theorem mul_lt_of_lt_ceilDiv {n b k : ℕ} (hb : 1 ≤ b) (hk : k < ceilDiv n b) :
    k * b < n := by
  unfold ceilDiv at hk
  have h1 := Nat.div_add_mod (n + b - 1) b
  have h2 : (n + b - 1) % b < b := Nat.mod_lt _ (by omega)
  have h3 : (k + 1) * b ≤ ((n + b - 1) / b) * b := Nat.mul_le_mul_right b hk
  rw [add_mul, one_mul] at h3
  rw [mul_comm] at h1
  omega

theorem ceilDiv_le_self {n b : ℕ} (hb : 1 ≤ b) : ceilDiv n b ≤ n := by
  by_contra h
  push_neg at h
  have h1 := mul_lt_of_lt_ceilDiv hb h
  have h2 : n ≤ n * b := by
    calc n = n * 1 := (mul_one n).symm
    _ ≤ n * b := Nat.mul_le_mul_left n hb
  omega

/-! ### The loop guard and termination -/

theorem guardB_iterate (cfg : Config) (k : ℕ) :
    guardB cfg ((loopBody cfg)^[k] initState) =
      decide (k * cfg.world_size * cfg.args.batch_size < cfg.args.num_samples) := by
  unfold guardB
  rw [iterate_images_length]

theorem guardB_iterate_iff (cfg : Config) (hb : 1 ≤ cfg.args.batch_size)
    (hw : 1 ≤ cfg.world_size) (k : ℕ) :
    guardB cfg ((loopBody cfg)^[k] initState) = true ↔ k < loopIters cfg := by
  rw [guardB_iterate, decide_eq_true_iff]
  constructor
  · intro h
    by_contra hk
    push_neg at hk
    have h1 : cfg.args.num_samples ≤
        loopIters cfg * (cfg.args.batch_size * cfg.world_size) :=
      le_ceilDiv_mul _ _ (Nat.mul_pos hb hw)
    have h2 : loopIters cfg * (cfg.args.batch_size * cfg.world_size) ≤
        k * (cfg.args.batch_size * cfg.world_size) :=
      Nat.mul_le_mul_right _ hk
    have h3 : k * cfg.world_size * cfg.args.batch_size =
        k * (cfg.args.batch_size * cfg.world_size) := by ring
    omega
  · intro hk
    have h2 : k * (cfg.args.batch_size * cfg.world_size) < cfg.args.num_samples :=
      mul_lt_of_lt_ceilDiv (Nat.mul_pos hb hw) hk
    have h3 : k * cfg.world_size * cfg.args.batch_size =
        k * (cfg.args.batch_size * cfg.world_size) := by ring
    omega

theorem runWhileFuel_zero (cfg : Config) (s : RunState) :
    runWhileFuel cfg 0 s = s := rfl

theorem runWhileFuel_succ (cfg : Config) (f : ℕ) (s : RunState) :
    runWhileFuel cfg (f + 1) s =
      if guardB cfg s then runWhileFuel cfg f (loopBody cfg s) else s := rfl

theorem runWhileFuel_stable (cfg : Config) :
    ∀ (j : ℕ) (s : RunState) (f : ℕ),
      (∀ k, k < j → guardB cfg ((loopBody cfg)^[k] s) = true) →
      guardB cfg ((loopBody cfg)^[j] s) = false →
      runWhileFuel cfg (j + f) s = (loopBody cfg)^[j] s := by
  intro j
  induction j with
  | zero =>
    intro s f _ h0
    simp only [Function.iterate_zero_apply] at h0 ⊢
    cases f with
    | zero => rfl
    | succ f => rw [Nat.zero_add, runWhileFuel_succ, if_neg (by simp [h0])]
  | succ j ih =>
    intro s f hg h0
    have hs : guardB cfg s = true := by
      have h := hg 0 (Nat.succ_pos j)
      simpa using h
    have hf : j + 1 + f = (j + f) + 1 := by omega
    rw [hf, runWhileFuel_succ, if_pos hs]
    have hg2 : ∀ k, k < j → guardB cfg ((loopBody cfg)^[k] (loopBody cfg s)) = true := by
      intro k hk
      have h := hg (k + 1) (by omega)
      rwa [Function.iterate_succ_apply] at h
    have h02 : guardB cfg ((loopBody cfg)^[j] (loopBody cfg s)) = false := by
      rwa [Function.iterate_succ_apply] at h0
    rw [ih (loopBody cfg s) f hg2 h02, ← Function.iterate_succ_apply]

theorem guardB_at_loopIters (cfg : Config) (hb : 1 ≤ cfg.args.batch_size)
    (hw : 1 ≤ cfg.world_size) :
    guardB cfg ((loopBody cfg)^[loopIters cfg] initState) = false := by
  cases hgb : guardB cfg ((loopBody cfg)^[loopIters cfg] initState)
  · rfl
  · exact absurd ((guardB_iterate_iff cfg hb hw _).mp hgb) (lt_irrefl _)

theorem runWhileFuel_from_iters (cfg : Config) (hb : 1 ≤ cfg.args.batch_size)
    (hw : 1 ≤ cfg.world_size) (f : ℕ) :
    runWhileFuel cfg (loopIters cfg + f) initState =
      (loopBody cfg)^[loopIters cfg] initState :=
  runWhileFuel_stable cfg (loopIters cfg) initState f
    (fun k hk => (guardB_iterate_iff cfg hb hw k).mpr hk)
    (guardB_at_loopIters cfg hb hw)

theorem finalLoopState_eq_iterate (cfg : Config) (hb : 1 ≤ cfg.args.batch_size)
    (hw : 1 ≤ cfg.world_size) :
    finalLoopState cfg = (loopBody cfg)^[loopIters cfg] initState := by
  unfold finalLoopState
  have hle : loopIters cfg ≤ cfg.args.num_samples := ceilDiv_le_self (Nat.mul_pos hb hw)
  have hsplit : cfg.args.num_samples = loopIters cfg + (cfg.args.num_samples - loopIters cfg) := by
    omega
  rw [hsplit]
  exact runWhileFuel_from_iters cfg hb hw _

theorem loopIters_pos (cfg : Config) (hb : 1 ≤ cfg.args.batch_size)
    (hw : 1 ≤ cfg.world_size) (hn : 1 ≤ cfg.args.num_samples) :
    1 ≤ loopIters cfg := by
  have h1 := le_ceilDiv_mul cfg.args.num_samples
    (cfg.args.batch_size * cfg.world_size) (Nat.mul_pos hb hw)
  by_contra h
  push_neg at h
  have h0 : loopIters cfg = 0 := by omega
  unfold loopIters at h0
  rw [h0, zero_mul] at h1
  omega

/-! ### Shapes and pixel bounds of the processed sample tensors -/

theorem quantizePixel_le (x : ℚ) : quantizePixel x ≤ 255 := by
  unfold quantizePixel
  have h1 : min (max ((x + 1) * (255 / 2)) 0) 255 ≤ (255 : ℚ) := min_le_right _ _
  have h2 : Int.floor (min (max ((x + 1) * (255 / 2)) 0) 255) ≤ (255 : ℤ) := by
    have h3 := Int.floor_le_floor h1
    have h4 : Int.floor ((255 : ℚ)) = (255 : ℤ) := by norm_num
    omega
  exact Int.toNat_le.mpr (by exact_mod_cast h2)

theorem getD_mem_or_eq {α : Type _} (l : List α) (n : ℕ) (d : α) :
    l.getD n d ∈ l ∨ l.getD n d = d := by
  rw [List.getD_eq_getElem?_getD]
  by_cases h : n < l.length
  · left
    rw [List.getElem?_eq_getElem h]
    simp only [Option.getD_some]
    exact List.getElem_mem h
  · right
    rw [List.getElem?_eq_none (by omega)]
    rfl

theorem headD_range_map {α : Type _} (m : ℕ) (g : ℕ → List α) (hm : 0 < m) :
    ((List.range m).map g).headD [] = g 0 := by
  cases m with
  | zero => omega
  | succ m =>
    rw [List.range_succ_eq_map]
    simp

theorem length_headD_range_map {α : Type _} (m : ℕ) (g : ℕ → List α) :
    (((List.range m).map g).headD []).length = if m = 0 then 0 else (g 0).length := by
  cases m with
  | zero => rfl
  | succ m =>
    rw [headD_range_map _ _ (Nat.succ_pos m)]
    simp

theorem permuteCHWtoHWC_shape (cube : List (List (List ℕ))) (p q : ℕ)
    (hH : (cube.headD []).length = p)
    (hW : ((cube.headD []).headD []).length = q) :
    hasShape3 (permuteCHWtoHWC cube) p q cube.length := by
  unfold permuteCHWtoHWC hasShape3
  rw [hH, hW]
  refine ⟨by simp, ?_⟩
  intro r hr
  simp only [List.mem_map, List.mem_range] at hr
  obtain ⟨h, _, rfl⟩ := hr
  refine ⟨by simp, ?_⟩
  intro pp hpp
  simp only [List.mem_map, List.mem_range] at hpp
  obtain ⟨x, _, rfl⟩ := hpp
  simp

theorem permuteCHWtoHWC_pixels (cube : List (List (List ℕ)))
    (hc : ∀ p ∈ cube, ∀ r ∈ p, ∀ v ∈ r, v ≤ 255) :
    pixels3Le255 (permuteCHWtoHWC cube) := by
  unfold permuteCHWtoHWC pixels3Le255
  intro r hr
  simp only [List.mem_map, List.mem_range] at hr
  obtain ⟨h, _, rfl⟩ := hr
  intro p hp
  simp only [List.mem_map, List.mem_range] at hp
  obtain ⟨x, _, rfl⟩ := hp
  intro v hv
  simp only [List.mem_map, List.mem_range] at hv
  obtain ⟨c, _, rfl⟩ := hv
  rcases getD_mem_or_eq cube c [] with h1 | h1
  · rcases getD_mem_or_eq (cube.getD c []) h [] with h2 | h2
    · rcases getD_mem_or_eq ((cube.getD c []).getD h []) x 0 with h3 | h3
      · exact hc _ h1 _ h2 _ h3
      · omega
    · rw [h2]
      simp
  · rw [h1]
    simp

theorem rawSampleQuantized_pixels (cfg : Config) (w i : ℕ) :
    pixelsLe255 (rawSampleQuantized cfg w i) := by
  unfold rawSampleQuantized pixelsLe255 pixels3Le255
  intro u hu
  simp only [List.mem_map, List.mem_range] at hu
  obtain ⟨b, _, rfl⟩ := hu
  intro r hr
  simp only [List.mem_map, List.mem_range] at hr
  obtain ⟨c, _, rfl⟩ := hr
  intro p hp
  simp only [List.mem_map, List.mem_range] at hp
  obtain ⟨h, _, rfl⟩ := hp
  intro v hv
  simp only [List.mem_map, List.mem_range] at hv
  obtain ⟨x, _, rfl⟩ := hv
  exact quantizePixel_le _

theorem processedSample_pixels (cfg : Config) (w i : ℕ) :
    pixelsLe255 (processedSample cfg w i) := by
  unfold processedSample permute0231 pixelsLe255
  intro u hu
  simp only [List.mem_map] at hu
  obtain ⟨cube, hcube, rfl⟩ := hu
  exact permuteCHWtoHWC_pixels cube (rawSampleQuantized_pixels cfg w i cube hcube)

theorem processedSample_shape (cfg : Config) (w i : ℕ) :
    hasShape4 (processedSample cfg w i) cfg.args.batch_size
      cfg.args.image_size cfg.args.image_size 3 := by
  unfold processedSample permute0231 rawSampleQuantized hasShape4
  refine ⟨by simp, ?_⟩
  intro u hu
  simp only [List.mem_map, List.mem_range] at hu
  obtain ⟨a, ⟨b, hb, rfl⟩, rfl⟩ := hu
  have h3 : (0 : ℕ) < 3 := by norm_num
  have hH : ((((List.range 3).map fun c =>
      (List.range cfg.args.image_size).map fun h =>
        (List.range cfg.args.image_size).map fun x =>
          quantizePixel (cfg.raw w i b c h x)).headD []).length) = cfg.args.image_size := by
    rw [headD_range_map _ _ h3]
    simp
  have hW : (((((List.range 3).map fun c =>
      (List.range cfg.args.image_size).map fun h =>
        (List.range cfg.args.image_size).map fun x =>
          quantizePixel (cfg.raw w i b c h x)).headD []).headD []).length) = cfg.args.image_size := by
    rw [headD_range_map _ _ h3, length_headD_range_map]
    rcases Nat.eq_zero_or_pos cfg.args.image_size with h | h
    · simp [h]
    · simp [Nat.pos_iff_ne_zero.mp h]
  have hs := permuteCHWtoHWC_shape _ _ _ hH hW
  simpa using hs

theorem workerClasses_length (cfg : Config) (w i : ℕ) :
    (workerClasses cfg w i).length = cfg.args.batch_size := by
  simp [workerClasses]

/-! ### Invariants of the accumulated state -/

theorem iterate_images_mem (cfg : Config) (k : ℕ) :
    ∀ t ∈ ((loopBody cfg)^[k] initState).all_images,
      hasShape4 t cfg.args.batch_size cfg.args.image_size cfg.args.image_size 3 ∧
        pixelsLe255 t := by
  induction k with
  | zero => intro t ht; simp [initState] at ht
  | succ k ih =>
    intro t ht
    rw [Function.iterate_succ_apply', loopBody_images] at ht
    rcases List.mem_append.mp ht with h | h
    · exact ih t h
    · unfold gatheredAt at h
      simp only [List.mem_map, List.mem_range] at h
      obtain ⟨w, _, rfl⟩ := h
      exact ⟨processedSample_shape cfg w _, processedSample_pixels cfg w _⟩

theorem iterate_labels_mem (cfg : Config) (k : ℕ) :
    ∀ l ∈ ((loopBody cfg)^[k] initState).all_labels,
      l.length = cfg.args.batch_size := by
  induction k with
  | zero => intro l hl; simp [initState] at hl
  | succ k ih =>
    intro l hl
    rw [Function.iterate_succ_apply', loopBody_labels] at hl
    by_cases hc : cfg.args.class_cond
    · rw [if_pos hc] at hl
      rcases List.mem_append.mp hl with h | h
      · exact ih l h
      · unfold labelsAt at h
        simp only [List.mem_map, List.mem_range] at h
        obtain ⟨w, _, rfl⟩ := h
        exact workerClasses_length cfg w _
    · rw [if_neg hc] at hl
      exact ih l hl

theorem stepEvents_sampleCall (cfg : Config) (r : Routine) (sh : ℕ × ℕ × ℕ × ℕ)
    (g : GuidanceKwargs) (h : Event.sampleCall r sh g ∈ stepEvents cfg) :
    r = sampleRoutine cfg ∧ sh = sampleShape cfg ∧ g = guidanceOf cfg := by
  unfold stepEvents at h
  by_cases hc : cfg.args.class_cond <;> simp [hc] at h <;> tauto

theorem iterate_events_sampleCall (cfg : Config) (k : ℕ) :
    ∀ (r : Routine) (sh : ℕ × ℕ × ℕ × ℕ) (g : GuidanceKwargs),
      Event.sampleCall r sh g ∈ ((loopBody cfg)^[k] initState).events →
      r = sampleRoutine cfg ∧ sh = sampleShape cfg ∧ g = guidanceOf cfg := by
  induction k with
  | zero => intro r sh g h; simp [initState] at h
  | succ k ih =>
    intro r sh g h
    rw [Function.iterate_succ_apply', loopBody_events] at h
    rcases List.mem_append.mp h with h1 | h1
    · exact ih r sh g h1
    · exact stepEvents_sampleCall cfg r sh g h1

theorem stepEvents_counts (cfg : Config) :
    (stepEvents cfg).countP Event.isSampleCall = 1 ∧
    (stepEvents cfg).countP Event.isAllGather =
      (if cfg.args.class_cond then 2 else 1) ∧
    (stepEvents cfg).countP Event.isBarrier = 0 := by
  unfold stepEvents
  by_cases hc : cfg.args.class_cond <;>
    simp [hc, List.countP_cons, Event.isSampleCall, Event.isAllGather, Event.isBarrier]

theorem iterate_event_counts (cfg : Config) (k : ℕ) :
    ((loopBody cfg)^[k] initState).events.countP Event.isSampleCall = k ∧
    ((loopBody cfg)^[k] initState).events.countP Event.isAllGather =
      k * (if cfg.args.class_cond then 2 else 1) ∧
    ((loopBody cfg)^[k] initState).events.countP Event.isBarrier = 0 := by
  induction k with
  | zero => simp [initState]
  | succ k ih =>
    obtain ⟨i1, i2, i3⟩ := ih
    obtain ⟨s1, s2, s3⟩ := stepEvents_counts cfg
    rw [Function.iterate_succ_apply', loopBody_events]
    refine ⟨?_, ?_, ?_⟩
    · rw [List.countP_append, i1, s1]
    · rw [List.countP_append, i2, s2, Nat.succ_mul]
    · rw [List.countP_append, i3, s3]

/-! ### The epilogue: concatenation, truncation, save, barrier -/

theorem final_images_isEmpty_false (cfg : Config) (hb : 1 ≤ cfg.args.batch_size)
    (hw : 1 ≤ cfg.world_size) (hn : 1 ≤ cfg.args.num_samples) :
    (finalLoopState cfg).all_images.isEmpty = false := by
  rw [finalLoopState_eq_iterate cfg hb hw]
  have hlen := iterate_images_length cfg (loopIters cfg)
  have hpos := loopIters_pos cfg hb hw hn
  have hmul : 0 < loopIters cfg * cfg.world_size := Nat.mul_pos hpos hw
  cases hI : ((loopBody cfg)^[loopIters cfg] initState).all_images with
  | nil => rw [hI] at hlen; simp only [List.length_nil] at hlen; omega
  | cons a l => rfl

theorem final_labels_check_false (cfg : Config) (hb : 1 ≤ cfg.args.batch_size)
    (hw : 1 ≤ cfg.world_size) (hn : 1 ≤ cfg.args.num_samples) :
    (cfg.args.class_cond && (finalLoopState cfg).all_labels.isEmpty) = false := by
  cases hc : cfg.args.class_cond with
  | false => rfl
  | true =>
    rw [Bool.true_and]
    rw [finalLoopState_eq_iterate cfg hb hw]
    have hlen := iterate_labels_length cfg (loopIters cfg)
    rw [hc] at hlen
    simp only [if_true] at hlen
    have hpos := loopIters_pos cfg hb hw hn
    have hmul : 0 < loopIters cfg * cfg.world_size := Nat.mul_pos hpos hw
    cases hI : ((loopBody cfg)^[loopIters cfg] initState).all_labels with
    | nil => rw [hI] at hlen; simp only [List.length_nil] at hlen; omega
    | cons a l => rfl

theorem mainRun_eq (cfg : Config) (hb : 1 ≤ cfg.args.batch_size)
    (hw : 1 ≤ cfg.world_size) (hn : 1 ≤ cfg.args.num_samples) :
    mainRun cfg =
      some ({ finalLoopState cfg with
                events := (finalLoopState cfg).events ++ [Event.barrier] },
            if cfg.rank = 0 then some (expectedSaved cfg) else none) := by
  unfold mainRun postLoop expectedSaved
  rw [final_images_isEmpty_false cfg hb hw hn, final_labels_check_false cfg hb hw hn]
  simp

theorem savedOf_eq (cfg : Config) (hb : 1 ≤ cfg.args.batch_size)
    (hw : 1 ≤ cfg.world_size) (hn : 1 ≤ cfg.args.num_samples) :
    savedOf cfg = if cfg.rank = 0 then some (expectedSaved cfg) else none := by
  unfold savedOf
  rw [mainRun_eq cfg hb hw hn]

theorem runEvents_eq (cfg : Config) (hb : 1 ≤ cfg.args.batch_size)
    (hw : 1 ≤ cfg.world_size) (hn : 1 ≤ cfg.args.num_samples) :
    runEvents cfg = (finalLoopState cfg).events ++ [Event.barrier] := by
  unfold runEvents
  rw [mainRun_eq cfg hb hw hn]

theorem iterate_flatten_length (cfg : Config) (k : ℕ) :
    ((loopBody cfg)^[k] initState).all_images.flatten.length =
      k * cfg.world_size * cfg.args.batch_size := by
  rw [List.length_flatten]
  have hmem := iterate_images_mem cfg k
  have hall : ∀ x ∈ ((loopBody cfg)^[k] initState).all_images.map List.length,
      x = cfg.args.batch_size := by
    intro x hx
    simp only [List.mem_map] at hx
    obtain ⟨t, ht, rfl⟩ := hx
    exact ((hmem t ht).1).1
  rw [List.sum_eq_card_nsmul _ _ hall, List.length_map, iterate_images_length,
    smul_eq_mul]

theorem iterate_labels_flatten_length (cfg : Config) (k : ℕ)
    (hc : cfg.args.class_cond = true) :
    ((loopBody cfg)^[k] initState).all_labels.flatten.length =
      k * cfg.world_size * cfg.args.batch_size := by
  rw [List.length_flatten]
  have hmem := iterate_labels_mem cfg k
  have hall : ∀ x ∈ ((loopBody cfg)^[k] initState).all_labels.map List.length,
      x = cfg.args.batch_size := by
    intro x hx
    simp only [List.mem_map] at hx
    obtain ⟨t, ht, rfl⟩ := hx
    exact hmem t ht
  rw [List.sum_eq_card_nsmul _ _ hall, List.length_map, iterate_labels_length,
    hc, if_pos rfl, smul_eq_mul]

theorem final_flatten_length_ge (cfg : Config) (hb : 1 ≤ cfg.args.batch_size)
    (hw : 1 ≤ cfg.world_size) :
    cfg.args.num_samples ≤ (finalLoopState cfg).all_images.flatten.length := by
  rw [finalLoopState_eq_iterate cfg hb hw, iterate_flatten_length]
  have hg := guardB_at_loopIters cfg hb hw
  rw [guardB_iterate] at hg
  simp only [decide_eq_false_iff_not, not_lt] at hg
  exact hg

theorem final_labels_flatten_length_ge (cfg : Config) (hb : 1 ≤ cfg.args.batch_size)
    (hw : 1 ≤ cfg.world_size) (hc : cfg.args.class_cond = true) :
    cfg.args.num_samples ≤ (finalLoopState cfg).all_labels.flatten.length := by
  rw [finalLoopState_eq_iterate cfg hb hw, iterate_labels_flatten_length cfg _ hc]
  have hg := guardB_at_loopIters cfg hb hw
  rw [guardB_iterate] at hg
  simp only [decide_eq_false_iff_not, not_lt] at hg
  exact hg

theorem runWhileFuel_eq_iterate (cfg : Config) :
    ∀ (f : ℕ) (s : RunState), ∃ k, k ≤ f ∧ runWhileFuel cfg f s = (loopBody cfg)^[k] s := by
  intro f
  induction f with
  | zero => intro s; exact ⟨0, le_refl 0, rfl⟩
  | succ f ih =>
    intro s
    rw [runWhileFuel_succ]
    by_cases hg : guardB cfg s = true
    · rw [if_pos hg]
      obtain ⟨k, hk, he⟩ := ih (loopBody cfg s)
      exact ⟨k + 1, by omega, by rw [he, Function.iterate_succ_apply]⟩
    · rw [if_neg hg]
      exact ⟨0, Nat.zero_le _, rfl⟩

theorem finalLoopState_is_iterate (cfg : Config) :
    ∃ k, finalLoopState cfg = (loopBody cfg)^[k] initState := by
  obtain ⟨k, _, hk⟩ := runWhileFuel_eq_iterate cfg cfg.args.num_samples initState
  exact ⟨k, hk⟩

theorem savedOf_arr_general (cfg : Config) (sf : SavedFile)
    (h : savedOf cfg = some sf) :
    sf.arr = (finalLoopState cfg).all_images.flatten.take cfg.args.num_samples := by
  unfold savedOf mainRun postLoop at h
  by_cases h1 : (finalLoopState cfg).all_images.isEmpty = true
  · rw [if_pos h1] at h
    exact absurd h (by simp)
  · rw [if_neg h1] at h
    by_cases h2 : (cfg.args.class_cond && (finalLoopState cfg).all_labels.isEmpty) = true
    · rw [if_pos h2] at h
      exact absurd h (by simp)
    · rw [if_neg h2] at h
      by_cases hr : cfg.rank = 0
      · rw [if_pos hr] at h
        simp only [Option.some.injEq] at h
        rw [← h]
      · rw [if_neg hr] at h
        exact absurd h (by simp)

/-! ### The claims -/

/-- C1: the sampling loop is an accumulate-until-enough pattern: the loop
body executes again exactly when `len(all_images) * batch_size <
num_samples` (the guard holds after `k` iterations precisely when the loop
still has an iteration to run, i.e. `k < loopIters`), and when the loop
exits the accumulated count `len(all_images) * batch_size` is at least
`num_samples`. -/
theorem C1_accumulate_until_enough (cfg : Config) (hb : 1 ≤ cfg.args.batch_size)
    (hw : 1 ≤ cfg.world_size) :
    (∀ k : ℕ, guardB cfg ((loopBody cfg)^[k] initState) = true ↔ k < loopIters cfg) ∧
    cfg.args.num_samples ≤
      (finalLoopState cfg).all_images.length * cfg.args.batch_size := by
  refine ⟨guardB_iterate_iff cfg hb hw, ?_⟩
  rw [finalLoopState_eq_iterate cfg hb hw]
  have hg := guardB_at_loopIters cfg hb hw
  unfold guardB at hg
  simp only [decide_eq_false_iff_not, not_lt] at hg
  exact hg

theorem C1_accumulate_until_enough_witness :
    (guardB cfgW ((loopBody cfgW)^[0] initState) = true ↔ 0 < loopIters cfgW) ∧
    cfgW.args.num_samples ≤
      (finalLoopState cfgW).all_images.length * cfgW.args.batch_size :=
  ⟨(C1_accumulate_until_enough cfgW (by decide) (by decide)).1 0,
   (C1_accumulate_until_enough cfgW (by decide) (by decide)).2⟩

/-- C2 as stated is false: the run `cfgTwo` (two loop iterations) performs
two `all_gather` calls, not a single collective gather for the whole run. -/
theorem C2_single_collective_counterexample :
    ¬ ((runEvents cfgTwo).countP Event.isAllGather = 1 ∧
       (runEvents cfgTwo).countP Event.isBarrier = 1) := by
  decide

/-- C2 (amended): distributed collection goes through one `all_gather`
call per loop iteration for the samples, plus one per iteration for the
labels when `class_cond` is set, and the whole run executes exactly one
barrier; so a run has `loopIters * (1 + class_cond)` gathers and one
barrier rather than a single collective point. -/
theorem C2_collectives_per_run (cfg : Config) (hb : 1 ≤ cfg.args.batch_size)
    (hw : 1 ≤ cfg.world_size) (hn : 1 ≤ cfg.args.num_samples) :
    (runEvents cfg).countP Event.isAllGather =
      loopIters cfg * (if cfg.args.class_cond then 2 else 1) ∧
    (runEvents cfg).countP Event.isBarrier = 1 := by
  rw [runEvents_eq cfg hb hw hn, finalLoopState_eq_iterate cfg hb hw]
  obtain ⟨c1, c2, c3⟩ := iterate_event_counts cfg (loopIters cfg)
  constructor
  · rw [List.countP_append, c2]
    simp [List.countP_cons, Event.isAllGather]
  · rw [List.countP_append, c3]
    simp [List.countP_cons, Event.isBarrier]

theorem C2_collectives_per_run_witness :
    (runEvents cfgW).countP Event.isAllGather =
      loopIters cfgW * (if cfgW.args.class_cond then 2 else 1) ∧
    (runEvents cfgW).countP Event.isBarrier = 1 :=
  C2_collectives_per_run cfgW (by decide) (by decide) (by decide)

/-- C5: for every `num_samples` and positive `batch_size` and world size,
the sampling loop terminates (any fuel beyond `loopIters` leaves the state
unchanged), it performs exactly
`loopIters = ceil(num_samples / (batch_size * world_size))` iterations,
and each iteration extends `all_images` by `world_size` entries. -/
theorem C5_terminates_ceil_iterations (cfg : Config) (hb : 1 ≤ cfg.args.batch_size)
    (hw : 1 ≤ cfg.world_size) :
    loopIters cfg = ceilDiv cfg.args.num_samples (cfg.args.batch_size * cfg.world_size) ∧
    (∀ f : ℕ, runWhileFuel cfg (loopIters cfg + f) initState =
      (loopBody cfg)^[loopIters cfg] initState) ∧
    finalLoopState cfg = (loopBody cfg)^[loopIters cfg] initState ∧
    (∀ s : RunState,
      (loopBody cfg s).all_images.length = s.all_images.length + cfg.world_size) :=
  ⟨rfl, runWhileFuel_from_iters cfg hb hw, finalLoopState_eq_iterate cfg hb hw,
   loopBody_images_length cfg⟩

theorem C5_terminates_ceil_iterations_witness :
    loopIters cfgW = ceilDiv cfgW.args.num_samples (cfgW.args.batch_size * cfgW.world_size) ∧
    runWhileFuel cfgW (loopIters cfgW + 3) initState =
      (loopBody cfgW)^[loopIters cfgW] initState ∧
    finalLoopState cfgW = (loopBody cfgW)^[loopIters cfgW] initState ∧
    (loopBody cfgW initState).all_images.length =
      initState.all_images.length + cfgW.world_size :=
  ⟨(C5_terminates_ceil_iterations cfgW (by decide) (by decide)).1,
   (C5_terminates_ceil_iterations cfgW (by decide) (by decide)).2.1 3,
   (C5_terminates_ceil_iterations cfgW (by decide) (by decide)).2.2.1,
   (C5_terminates_ceil_iterations cfgW (by decide) (by decide)).2.2.2 initState⟩

/-- C6: the script only dispatches to the external sampling routine: every
invocation recorded in the run uses `ddim_sample_loop` exactly when
`use_ddim` is set (else `p_sample_loop`) with shape
`(batch_size, 3, image_size, image_size)`, and there is exactly one such
invocation per loop iteration. -/
theorem C6_dispatch_external (cfg : Config) :
    (finalLoopState cfg).events.countP Event.isSampleCall = (finalLoopState cfg).iter ∧
    ∀ (r : Routine) (sh : ℕ × ℕ × ℕ × ℕ) (g : GuidanceKwargs),
      Event.sampleCall r sh g ∈ (finalLoopState cfg).events →
      r = (if cfg.args.use_ddim then Routine.ddim_sample_loop else Routine.p_sample_loop) ∧
      sh = (cfg.args.batch_size, 3, cfg.args.image_size, cfg.args.image_size) := by
  obtain ⟨k, hk⟩ := finalLoopState_is_iterate cfg
  rw [hk]
  constructor
  · rw [iterate_iter]
    exact (iterate_event_counts cfg k).1
  · intro r sh g h
    obtain ⟨hr, hsh, _⟩ := iterate_events_sampleCall cfg k r sh g h
    exact ⟨hr, hsh⟩

theorem C6_dispatch_external_witness :
    (finalLoopState cfgW).events.countP Event.isSampleCall = (finalLoopState cfgW).iter ∧
    (Routine.p_sample_loop =
      (if cfgW.args.use_ddim then Routine.ddim_sample_loop else Routine.p_sample_loop) ∧
     ((1 : ℕ), (3 : ℕ), (1 : ℕ), (1 : ℕ)) =
      (cfgW.args.batch_size, 3, cfgW.args.image_size, cfgW.args.image_size)) :=
  ⟨(C6_dispatch_external cfgW).1,
   (C6_dispatch_external cfgW).2 Routine.p_sample_loop (1, 3, 1, 1)
     (guidanceOf cfgW) (by decide)⟩

/-- C7: each collective gather collects every worker's tensors: one loop
iteration extends `all_images` by exactly `world_size` batch arrays, one
per worker in rank order, each of shape
`(batch_size, image_size, image_size, 3)`; and when `class_cond` is set,
`all_labels` is likewise extended by `world_size` label arrays of length
`batch_size`. -/
theorem C7_gather_collects_all_workers (cfg : Config) (s : RunState) :
    (loopBody cfg s).all_images = s.all_images ++ gatheredAt cfg s.iter ∧
    (gatheredAt cfg s.iter).length = cfg.world_size ∧
    (∀ t ∈ gatheredAt cfg s.iter,
      hasShape4 t cfg.args.batch_size cfg.args.image_size cfg.args.image_size 3) ∧
    (cfg.args.class_cond = true →
      (loopBody cfg s).all_labels = s.all_labels ++ labelsAt cfg s.iter ∧
      (labelsAt cfg s.iter).length = cfg.world_size ∧
      ∀ l ∈ labelsAt cfg s.iter, l.length = cfg.args.batch_size) := by
  refine ⟨loopBody_images cfg s, gatheredAt_length cfg s.iter, ?_, ?_⟩
  · intro t ht
    unfold gatheredAt at ht
    simp only [List.mem_map, List.mem_range] at ht
    obtain ⟨w, _, rfl⟩ := ht
    exact processedSample_shape cfg w s.iter
  · intro hc
    refine ⟨?_, labelsAt_length cfg s.iter, ?_⟩
    · rw [loopBody_labels, if_pos hc]
    · intro l hl
      unfold labelsAt at hl
      simp only [List.mem_map, List.mem_range] at hl
      obtain ⟨w, _, rfl⟩ := hl
      exact workerClasses_length cfg w s.iter

theorem C7_gather_collects_all_workers_witness :
    (loopBody cfgW initState).all_images =
      initState.all_images ++ gatheredAt cfgW initState.iter ∧
    (gatheredAt cfgW initState.iter).length = cfgW.world_size ∧
    hasShape4 (processedSample cfgW 0 0) cfgW.args.batch_size
      cfgW.args.image_size cfgW.args.image_size 3 ∧
    (loopBody cfgW initState).all_labels =
      initState.all_labels ++ labelsAt cfgW initState.iter :=
  ⟨(C7_gather_collects_all_workers cfgW initState).1,
   (C7_gather_collects_all_workers cfgW initState).2.1,
   (C7_gather_collects_all_workers cfgW initState).2.2.1
     (processedSample cfgW 0 0) (by decide),
   ((C7_gather_collects_all_workers cfgW initState).2.2.2 (by decide)).1⟩

/-- C8: the guidance configuration is passed through unchanged: the
`guidance_kwargs` dictionary maps `guide_start`, `guide_scale` and
`blur_sigma` exactly to the parsed argument values, and every sampling
invocation of the run receives exactly that dictionary. -/
theorem C8_guidance_passthrough (cfg : Config) :
    guidanceOf cfg =
      ⟨cfg.args.guide_start, cfg.args.guide_scale, cfg.args.blur_sigma⟩ ∧
    ∀ (r : Routine) (sh : ℕ × ℕ × ℕ × ℕ) (g : GuidanceKwargs),
      Event.sampleCall r sh g ∈ (finalLoopState cfg).events →
      g.guide_start = cfg.args.guide_start ∧
      g.guide_scale = cfg.args.guide_scale ∧
      g.blur_sigma = cfg.args.blur_sigma := by
  obtain ⟨k, hk⟩ := finalLoopState_is_iterate cfg
  rw [hk]
  refine ⟨rfl, ?_⟩
  intro r sh g h
  obtain ⟨_, _, hg⟩ := iterate_events_sampleCall cfg k r sh g h
  rw [hg]
  exact ⟨rfl, rfl, rfl⟩

theorem C8_guidance_passthrough_witness :
    guidanceOf cfgW =
      ⟨cfgW.args.guide_start, cfgW.args.guide_scale, cfgW.args.blur_sigma⟩ ∧
    ((guidanceOf cfgW).guide_start = cfgW.args.guide_start ∧
     (guidanceOf cfgW).guide_scale = cfgW.args.guide_scale ∧
     (guidanceOf cfgW).blur_sigma = cfgW.args.blur_sigma) :=
  ⟨(C8_guidance_passthrough cfgW).1,
   (C8_guidance_passthrough cfgW).2 Routine.p_sample_loop (1, 3, 1, 1)
     (guidanceOf cfgW) (by decide)⟩

/-- C3: after the sampling loop the gathered results are serialized to
disk: exactly on the rank-0 worker a `.npz` file named
`samples_<shape>.npz` under the logger directory is written, containing
the concatenated sample array truncated to `num_samples` and, when
`class_cond` is set, the truncated label array. -/
theorem C3_rank0_save (cfg : Config) (hb : 1 ≤ cfg.args.batch_size)
    (hw : 1 ≤ cfg.world_size) (hn : 1 ≤ cfg.args.num_samples) :
    ((savedOf cfg).isSome = true ↔ cfg.rank = 0) ∧
    ∀ sf, savedOf cfg = some sf →
      sf.path = ospathJoin cfg.logger_dir
        ("samples_" ++
          shapeStrOf ((finalLoopState cfg).all_images.flatten.take cfg.args.num_samples) ++
          ".npz") ∧
      sf.arr = (finalLoopState cfg).all_images.flatten.take cfg.args.num_samples ∧
      sf.labels = (if cfg.args.class_cond then
          some ((finalLoopState cfg).all_labels.flatten.take cfg.args.num_samples)
        else none) := by
  have hs := savedOf_eq cfg hb hw hn
  constructor
  · rw [hs]
    by_cases hr : cfg.rank = 0
    · simp [hr]
    · simp [hr]
  · intro sf hsf
    rw [hs] at hsf
    by_cases hr : cfg.rank = 0
    · rw [if_pos hr] at hsf
      simp only [Option.some.injEq] at hsf
      subst hsf
      exact ⟨rfl, rfl, rfl⟩
    · rw [if_neg hr] at hsf
      exact absurd hsf (by simp)

theorem C3_rank0_save_witness :
    ((savedOf cfgW).isSome = true ↔ cfgW.rank = 0) ∧
    ((expectedSaved cfgW).path = ospathJoin cfgW.logger_dir
        ("samples_" ++
          shapeStrOf ((finalLoopState cfgW).all_images.flatten.take cfgW.args.num_samples) ++
          ".npz") ∧
     (expectedSaved cfgW).arr =
       (finalLoopState cfgW).all_images.flatten.take cfgW.args.num_samples ∧
     (expectedSaved cfgW).labels = (if cfgW.args.class_cond then
         some ((finalLoopState cfgW).all_labels.flatten.take cfgW.args.num_samples)
       else none)) :=
  ⟨(C3_rank0_save cfgW (by decide) (by decide) (by decide)).1,
   (C3_rank0_save cfgW (by decide) (by decide) (by decide)).2
     (expectedSaved cfgW) (by decide)⟩

/-- C4 as stated is false at `num_samples = 0`: with batch size 1 and one
worker the loop is skipped, so `np.concatenate` raises (`mainRun` errors)
and no array is saved at all, instead of a saved array with exactly
`num_samples = 0` images. -/
theorem C4_zero_samples_counterexample :
    1 ≤ cfgZero.args.batch_size ∧ 1 ≤ cfgZero.world_size ∧
    cfgZero.rank = 0 ∧ cfgZero.args.num_samples = 0 ∧ mainRun cfgZero = none := by
  decide

/-- C4 (amended): for every run with `batch_size >= 1`, world size `>= 1`
and `num_samples >= 1`, the saved array is the concatenation of all
gathered batches truncated to exactly `num_samples` images, each of shape
`(image_size, image_size, 3)`; when `class_cond` is set the saved label
array likewise has exactly `num_samples` entries. -/
theorem C4_saved_array_num_samples (cfg : Config) (hb : 1 ≤ cfg.args.batch_size)
    (hw : 1 ≤ cfg.world_size) (hn : 1 ≤ cfg.args.num_samples) :
    ∀ sf, savedOf cfg = some sf →
      sf.arr.length = cfg.args.num_samples ∧
      sf.arr = (finalLoopState cfg).all_images.flatten.take cfg.args.num_samples ∧
      (∀ img ∈ sf.arr, hasShape3 img cfg.args.image_size cfg.args.image_size 3) ∧
      (cfg.args.class_cond = true →
        ∃ l, sf.labels = some l ∧ l.length = cfg.args.num_samples) := by
  intro sf hsf
  rw [savedOf_eq cfg hb hw hn] at hsf
  by_cases hr : cfg.rank = 0
  swap
  · rw [if_neg hr] at hsf
    exact absurd hsf (by simp)
  rw [if_pos hr] at hsf
  simp only [Option.some.injEq] at hsf
  subst hsf
  refine ⟨?_, rfl, ?_, ?_⟩
  · show ((finalLoopState cfg).all_images.flatten.take cfg.args.num_samples).length = _
    rw [List.length_take]
    exact min_eq_left (final_flatten_length_ge cfg hb hw)
  · intro img himg
    have h2 : img ∈ (finalLoopState cfg).all_images.flatten :=
      List.take_subset _ _ himg
    rw [List.mem_flatten] at h2
    obtain ⟨t, ht, hit⟩ := h2
    obtain ⟨k, hk⟩ := finalLoopState_is_iterate cfg
    rw [hk] at ht
    exact ((iterate_images_mem cfg k t ht).1).2 img hit
  · intro hc
    refine ⟨(finalLoopState cfg).all_labels.flatten.take cfg.args.num_samples, ?_, ?_⟩
    · show (if cfg.args.class_cond then
          some ((finalLoopState cfg).all_labels.flatten.take cfg.args.num_samples)
        else none) = _
      rw [hc]
      simp
    · rw [List.length_take]
      exact min_eq_left (final_labels_flatten_length_ge cfg hb hw hc)

theorem C4_saved_array_num_samples_witness :
    (expectedSaved cfgW).arr.length = cfgW.args.num_samples ∧
    (expectedSaved cfgW).arr =
      (finalLoopState cfgW).all_images.flatten.take cfgW.args.num_samples :=
  ⟨((C4_saved_array_num_samples cfgW (by decide) (by decide) (by decide))
      (expectedSaved cfgW) (by decide)).1,
   ((C4_saved_array_num_samples cfgW (by decide) (by decide) (by decide))
      (expectedSaved cfgW) (by decide)).2.1⟩

/-- C9: every pixel value appended to `all_images` -- and hence every
element of the saved sample array -- is an unsigned 8-bit value in
`[0, 255]`: the quantization `x -> ((x + 1) * 127.5).clamp(0, 255)`
followed by the uint8 conversion is bounded by 255, and the bound holds of
every accumulated batch and of the saved array. -/
theorem C9_pixels_le_255 (cfg : Config) :
    (∀ x : ℚ, quantizePixel x ≤ 255) ∧
    (∀ t ∈ (finalLoopState cfg).all_images, pixelsLe255 t) ∧
    (∀ sf, savedOf cfg = some sf → ∀ img ∈ sf.arr, pixels3Le255 img) := by
  obtain ⟨k, hk⟩ := finalLoopState_is_iterate cfg
  have hmem : ∀ t ∈ (finalLoopState cfg).all_images, pixelsLe255 t := by
    rw [hk]
    intro t ht
    exact (iterate_images_mem cfg k t ht).2
  refine ⟨quantizePixel_le, hmem, ?_⟩
  intro sf hsf img himg
  rw [savedOf_arr_general cfg sf hsf] at himg
  have h2 : img ∈ (finalLoopState cfg).all_images.flatten :=
    List.take_subset _ _ himg
  rw [List.mem_flatten] at h2
  obtain ⟨t, ht, hit⟩ := h2
  exact hmem t ht img hit

theorem C9_pixels_le_255_witness :
    quantizePixel 0 ≤ 255 ∧
    pixelsLe255 (processedSample cfgW 0 0) ∧
    pixels3Le255 [[[127, 127, 127]]] :=
  ⟨(C9_pixels_le_255 cfgW).1 0,
   (C9_pixels_le_255 cfgW).2.1 (processedSample cfgW 0 0) (by decide),
   (C9_pixels_le_255 cfgW).2.2 (expectedSaved cfgW) (by decide)
     [[[127, 127, 127]]] (by decide)⟩

end SAG
